import Mathlib

/-!
Verification development for the xmas-hat-generator overlay editor.

The definitions below are a shallow embedding of the editor component
(`Editor` in the repository): the data model from `types.ts`, the geometry
helpers, the scene mutators and the pointer-event handlers.  JavaScript
numbers are modelled as real numbers; canvas/DOM effects are modelled as
explicit state (the backing image, the list of placed hats, the selection,
the interaction mode and the captured interaction baseline).
-/

namespace XmasHat

open Real

/-- Overlay definition record (`Hat` in types.ts). -/
structure Hat where
  id : String
  name : String
  src : String
deriving DecidableEq

/-- A placed overlay instance (`PlacedHat` in types.ts): the overlay fields
plus a unique instance id, center position, uniform scale, rotation in
degrees and a horizontal mirror flag. -/
structure PlacedHat where
  id : String
  name : String
  src : String
  uid : String
  x : ℝ
  y : ℝ
  scale : ℝ
  rotation : ℝ
  isMirrored : Bool

/-- A decoded raster image: only its natural width and height matter to the
editor logic. -/
structure Img where
  width : ℝ
  height : ℝ

/-- Interaction modes of the editor state machine (`type Mode`). -/
inductive Mode where
  | NONE
  | DRAG
  | ROTATE
  | SCALE
deriving DecidableEq

/-- The captured baseline at the start of a gesture (`startInteraction`). -/
structure StartInteraction where
  mouseX : ℝ
  mouseY : ℝ
  startRotation : ℝ
  startScale : ℝ
  startX : ℝ
  startY : ℝ

/-- The component state: background image, placed hats (z-order: later =
on top), selection, decoded-raster cache, interaction mode and baseline. -/
structure EditorState where
  image : Option Img
  hats : List PlacedHat
  selectedHatId : Option String
  loadedImages : String → Option Img
  mode : Mode
  startInteraction : StartInteraction

/-- `const MIN_CANVAS_WIDTH = 2048`. -/
def MIN_CANVAS_WIDTH : ℝ := 2048

/-- `const BASE_HANDLE_RADIUS = 12`. -/
def BASE_HANDLE_RADIUS : ℝ := 12

/-- Backing-canvas dimensions. -/
structure Dims where
  width : ℝ
  height : ℝ

/-- `getRenderDimensions`: keep the native size if the image is at least
`MIN_CANVAS_WIDTH` wide, otherwise scale both dimensions up by
`MIN_CANVAS_WIDTH / img.width`. -/
noncomputable def getRenderDimensions (img : Img) : Dims :=
  if MIN_CANVAS_WIDTH ≤ img.width then
    { width := img.width, height := img.height }
  else
    let scale := MIN_CANVAS_WIDTH / img.width
    { width := MIN_CANVAS_WIDTH, height := img.height * scale }

/-- The `img.onload` callback of `processFile`: install the new background
and clear the hats and the selection. -/
def loadBackground (s : EditorState) (img : Img) : EditorState :=
  { s with image := some img, hats := [], selectedHatId := none }

/-- The hat-adding effect (`useEffect` on `hatToAdd`), after the raster has
been resolved by `loadHatImage`.  `newUid` stands for the generated unique
id and `jx`, `jy` for the pseudo-random jitter summands (each
`(Math.random() - 0.5) * 40`).  The cache is updated the way
`loadHatImage` updates it: a cache hit resolves the cached raster and
leaves the cache unchanged, a miss stores the freshly decoded raster. -/
noncomputable def addHat (s : EditorState) (hat : Hat) (img : Img)
    (newUid : String) (jx jy : ℝ) : EditorState :=
  let resolved := match s.loadedImages hat.src with
    | some cached => cached
    | none => img
  let placement : ℝ × ℝ × ℝ :=
    match s.image with
    | none => (1, 400, 300)
    | some bg =>
      let d := getRenderDimensions bg
      let targetWidth := d.width * 0.35
      let initialScale := targetWidth / resolved.width
      let initialX := d.width / 2
      let initialY := d.height / 3
      if 0 < s.hats.length then (initialScale, initialX + jx, initialY + jy)
      else (initialScale, initialX, initialY)
  let newHat : PlacedHat :=
    { id := hat.id, name := hat.name, src := hat.src, uid := newUid,
      x := placement.2.1, y := placement.2.2, scale := placement.1,
      rotation := 0, isMirrored := false }
  { s with hats := s.hats ++ [newHat],
           selectedHatId := some newUid,
           loadedImages := fun p =>
             if p = hat.src then some resolved else s.loadedImages p }

/-- The corner record returned by `getTransformedCorners`. -/
structure Corners where
  tl : ℝ × ℝ
  tr : ℝ × ℝ
  br : ℝ × ℝ
  bl : ℝ × ℝ
  width : ℝ
  height : ℝ

/-- `getTransformedCorners`: the four corners of the `w × h` local box
(`w = rasterWidth * scale`, `h = rasterHeight * scale`), each rotated about
the origin by the rotation converted to radians and translated by the
instance center.  Returns `none` when the raster is not cached. -/
noncomputable def getTransformedCorners (li : String → Option Img)
    (hat : PlacedHat) : Option Corners :=
  match li hat.src with
  | none => none
  | some img =>
    let w := img.width * hat.scale
    let h := img.height * hat.scale
    let rad := hat.rotation * Real.pi / 180
    let c := Real.cos rad
    let s := Real.sin rad
    let rotatePoint : ℝ → ℝ → ℝ × ℝ := fun px py =>
      (px * c - py * s + hat.x, px * s + py * c + hat.y)
    some { tl := rotatePoint (-(w / 2)) (-(h / 2)),
           tr := rotatePoint (w / 2) (-(h / 2)),
           br := rotatePoint (w / 2) (h / 2),
           bl := rotatePoint (-(w / 2)) (h / 2),
           width := w, height := h }

/-- `isPointInCircle`: inclusive Euclidean distance test. -/
noncomputable def isPointInCircle (px py cx cy radius : ℝ) : Prop :=
  Real.sqrt ((px - cx) ^ 2 + (py - cy) ^ 2) ≤ radius

noncomputable instance (px py cx cy radius : ℝ) :
    Decidable (isPointInCircle px py cx cy radius) := by
  unfold isPointInCircle; infer_instance

/-- `deleteSelectedHat`: remove every hat whose uid matches the selection,
clear the selection and return to the idle mode; no-op without selection. -/
def deleteSelectedHat (s : EditorState) : EditorState :=
  match s.selectedHatId with
  | some sid =>
    { s with hats := s.hats.filter (fun h => h.uid ≠ sid),
             selectedHatId := none,
             mode := Mode.NONE }
  | none => s

/-- The baseline captured by `setStartInteraction` at pointer-down: the
pointer position plus the hat's rotation, scale and position. -/
def captureStart (hat : PlacedHat) (x y : ℝ) : StartInteraction :=
  { mouseX := x, mouseY := y,
    startRotation := hat.rotation, startScale := hat.scale,
    startX := hat.x, startY := hat.y }

/-- The per-hat oriented-bounding-box test of the `handleMouseDown` loop:
inverse-rotate the pointer offset into the hat's local space and compare
against the axis-aligned half-extents.  `False` when the raster is not
cached (the loop `continue`s). -/
noncomputable def hatHit (li : String → Option Img) (x y : ℝ)
    (hat : PlacedHat) : Prop :=
  match li hat.src with
  | none => False
  | some img =>
    let dx := x - hat.x
    let dy := y - hat.y
    let rad := -hat.rotation * Real.pi / 180
    let localX := dx * Real.cos rad - dy * Real.sin rad
    let localY := dx * Real.sin rad + dy * Real.cos rad
    let w := img.width * hat.scale
    let h := img.height * hat.scale;
    -(w / 2) ≤ localX ∧ localX ≤ w / 2 ∧ -(h / 2) ≤ localY ∧ localY ≤ h / 2

noncomputable instance (li : String → Option Img) (x y : ℝ)
    (hat : PlacedHat) : Decidable (hatHit li x y hat) := by
  unfold hatHit
  rcases li hat.src with _ | img
  · exact inferInstanceAs (Decidable False)
  · exact inferInstanceAs (Decidable (_ ∧ _ ∧ _ ∧ _))

/-- The `for (let i = hats.length - 1; i >= 0; i--)` loop of
`handleMouseDown`: the topmost (last) hit hat wins.  Recursing on the tail
first checks the later (higher z-order) entries before the head. -/
noncomputable def findHitHat (li : String → Option Img) (x y : ℝ) :
    List PlacedHat → Option PlacedHat
  | [] => none
  | hat :: rest =>
    match findHitHat li x y rest with
    | some hit => some hit
    | none => if hatHit li x y hat then some hat else none

/-- Step 2 of `handleMouseDown`: hit-test the hats topmost-first; a hit
selects the hat, brings it to the front of the z-order and starts
dragging; otherwise the click landed on the background and deselects. -/
noncomputable def hatHitFallback (s : EditorState) (x y : ℝ) :
    EditorState :=
  match findHitHat s.loadedImages x y s.hats with
  | some hat =>
    { s with selectedHatId := some hat.uid,
             hats := s.hats.filter (fun h => h.uid ≠ hat.uid) ++ [hat],
             mode := Mode.DRAG,
             startInteraction := captureStart hat x y }
  | none => { s with selectedHatId := none }

/-- `handleMouseDown`, parameterised by the display-to-backing ratio
`uiScale` (`getUiScale()`) and the pointer position in backing-canvas
coordinates.  Returns the component state after the event.  Step 1: if a
hat is selected and its corners are available, test the four control
circles in the order delete, rotate, scale, flip; otherwise fall through
to the instance hit test. -/
noncomputable def handleMouseDown (uiScale : ℝ) (s : EditorState)
    (x y : ℝ) : EditorState :=
  match s.image with
  | none => s
  | some _ =>
    let hitRadius := BASE_HANDLE_RADIUS * uiScale * 1.5
    match s.selectedHatId with
    | none => hatHitFallback s x y
    | some sid =>
      match s.hats.find? (fun h => h.uid = sid) with
      | none => hatHitFallback s x y
      | some hat =>
        match getTransformedCorners s.loadedImages hat with
        | none => hatHitFallback s x y
        | some corners =>
          if isPointInCircle x y corners.tl.1 corners.tl.2 hitRadius then
            deleteSelectedHat s
          else if isPointInCircle x y corners.tr.1 corners.tr.2 hitRadius then
            { s with mode := Mode.ROTATE,
                     startInteraction := captureStart hat x y }
          else if isPointInCircle x y corners.br.1 corners.br.2 hitRadius then
            { s with mode := Mode.SCALE,
                     startInteraction := captureStart hat x y }
          else if isPointInCircle x y corners.bl.1 corners.bl.2 hitRadius then
            { s with hats := s.hats.map (fun h =>
                if h.uid = sid then { h with isMirrored := !h.isMirrored }
                else h) }
          else hatHitFallback s x y

/-- JavaScript `Math.atan2` on real inputs (radians, range `(-π, π]` with
`atan2 0 0 = 0`). -/
noncomputable def atan2 (y x : ℝ) : ℝ :=
  if 0 < x then Real.arctan (y / x)
  else if x < 0 then
    if 0 ≤ y then Real.arctan (y / x) + Real.pi
    else Real.arctan (y / x) - Real.pi
  else
    if 0 < y then Real.pi / 2
    else if y < 0 then -(Real.pi / 2)
    else 0

/-- `Math.atan2(dy, dx) * (180 / Math.PI)`: pointer angle in degrees. -/
noncomputable def atan2deg (dy dx : ℝ) : ℝ :=
  atan2 dy dx * (180 / Real.pi)

/-- The body of the `setHats` map in `handleMouseMove`, applied to the
selected hat: position from the drag delta, rotation from the pointer
angle delta, or scale from the pointer distance ratio. -/
noncomputable def moveHat (mode : Mode) (si : StartInteraction) (x y : ℝ)
    (hat : PlacedHat) : PlacedHat :=
  match mode with
  | Mode.DRAG =>
    let dx := x - si.mouseX
    let dy := y - si.mouseY
    { hat with x := si.startX + dx, y := si.startY + dy }
  | Mode.ROTATE =>
    let angle := atan2deg (y - hat.y) (x - hat.x)
    let startAngle := atan2deg (si.mouseY - hat.y) (si.mouseX - hat.x)
    { hat with rotation := si.startRotation + (angle - startAngle) }
  | Mode.SCALE =>
    let dist := Real.sqrt ((x - hat.x) ^ 2 + (y - hat.y) ^ 2)
    let startDist :=
      Real.sqrt ((si.mouseX - hat.x) ^ 2 + (si.mouseY - hat.y) ^ 2)
    let newScale := si.startScale * (dist / startDist)
    { hat with scale := max 0.1 newScale }
  | Mode.NONE => hat

/-- `handleMouseMove`: no-op when idle or without selection, otherwise
update the selected hat according to the current mode. -/
noncomputable def handleMouseMove (s : EditorState) (x y : ℝ) :
    EditorState :=
  if s.mode = Mode.NONE then s
  else
    match s.selectedHatId with
    | none => s
    | some sid =>
      { s with hats := s.hats.map (fun hat =>
          if hat.uid = sid then moveHat s.mode s.startInteraction x y hat
          else hat) }

/-- `handleMouseUp` (also bound to mouse-leave / touch-end):
unconditionally return to the idle mode. -/
def handleMouseUp (s : EditorState) : EditorState :=
  { s with mode := Mode.NONE }

/-- The mirror toggle of the bottom-left control (`setHats(prev.map ...)`
keyed on the selected uid); a no-op without selection. -/
def toggleMirrorSelected (s : EditorState) : EditorState :=
  match s.selectedHatId with
  | some sid =>
    { s with hats := s.hats.map (fun h =>
        if h.uid = sid then { h with isMirrored := !h.isMirrored } else h) }
  | none => s

/-- The scene mutators reachable from the component's entry points; the
non-deterministic inputs (decoded raster, generated uid, jitter, pointer
coordinates, display ratio) are carried as parameters. -/
inductive Op where
  | addOverlay (hat : Hat) (img : Img) (uid : String) (jx jy : ℝ)
  | pointerDown (uiScale x y : ℝ)
  | pointerMove (x y : ℝ)
  | pointerUp
  | deleteSel
  | toggleMir
  | loadBg (img : Img)

/-- One mutator application. -/
noncomputable def step (s : EditorState) : Op → EditorState
  | Op.addOverlay hat img uid jx jy => addHat s hat img uid jx jy
  | Op.pointerDown uiScale x y => handleMouseDown uiScale s x y
  | Op.pointerMove x y => handleMouseMove s x y
  | Op.pointerUp => handleMouseUp s
  | Op.deleteSel => deleteSelectedHat s
  | Op.toggleMir => toggleMirrorSelected s
  | Op.loadBg img => loadBackground s img

/-- Run a sequence of mutators. -/
noncomputable def run (s : EditorState) (ops : List Op) : EditorState :=
  ops.foldl step s

/-- Selection validity: a present selection references a placed hat. -/
def SelInv (s : EditorState) : Prop :=
  ∀ u, s.selectedHatId = some u → u ∈ s.hats.map (fun h => h.uid)

/-- The component's initial state: no background, no hats, no selection,
empty raster cache, idle mode, the initial `startInteraction` record. -/
def initState : EditorState :=
  { image := none, hats := [], selectedHatId := none,
    loadedImages := fun _ => none, mode := Mode.NONE,
    startInteraction :=
      { mouseX := 0, mouseY := 0, startRotation := 0, startScale := 1,
        startX := 0, startY := 0 } }

/-!  Asset cache (`loadHatImage`), modelled as an event trace on the
single-threaded event loop.  A `request` is a `loadHatImage` call: it is
served from the cache when the path has been stored, and otherwise starts
a fresh decode (the code keeps no in-flight record, so every cache miss
decodes).  A `complete` is an `img.onload` callback, which stores the
decoded raster under its path. -/

/-- Events seen by the asset cache. -/
inductive CacheEvent where
  | request (path : String)
  | complete (path : String)

/-- The set of cached paths after processing a trace. -/
def cacheAfter : List String → List CacheEvent → List String
  | cache, [] => cache
  | cache, CacheEvent.request _ :: rest => cacheAfter cache rest
  | cache, CacheEvent.complete p :: rest => cacheAfter (p :: cache) rest

/-- How many decodes of path `p` a trace triggers, starting from a given
cache: each `request p` that misses the cache creates a fresh `Image` and
decodes; each `complete q` stores `q`. -/
def decodeCount (p : String) : List String → List CacheEvent → Nat
  | _, [] => 0
  | cache, CacheEvent.request q :: rest =>
    (if q = p ∧ q ∉ cache then 1 else 0) + decodeCount p cache rest
  | cache, CacheEvent.complete q :: rest => decodeCount p (q :: cache) rest

/-!  Export adapter (`handleDownload` / `handleCopy`), modelled as the
trace of effects each call performs.  `render b` is a `draw(b)` call;
encoding and clipboard outcomes are carried as boolean parameters, and the
`try`/`catch` of `handleCopy` is modelled with `Except`. -/

/-- Effects performed by the export operations. -/
inductive ExportEvent where
  | render (showControls : Bool)
  | encodePng
  | saveFile
  | writeClipboard
deriving DecidableEq

/-- `canvas.toBlob` outcome. -/
def encodeBlob (blobOk : Bool) : Except String Unit :=
  if blobOk then Except.ok () else Except.error "Failed to create blob"

/-- `navigator.clipboard.write` outcome. -/
def clipboardWrite (clipOk : Bool) : Except String Unit :=
  if clipOk then Except.ok () else Except.error "NotAllowedError"

/-- `handleDownload`: guard on canvas and image, then `draw(false)`,
serialize, trigger the save, `draw(true)`. -/
def handleDownload (hasCanvas hasImage : Bool) : List ExportEvent :=
  if hasCanvas && hasImage then
    [ExportEvent.render false, ExportEvent.encodePng,
     ExportEvent.saveFile, ExportEvent.render true]
  else []

/-- `handleCopy`: guard on canvas and image (returning `false`), then
`draw(false)` and the guarded encode/clipboard sequence; both the success
path and the `catch` path end with `draw(true)`.  The result is the
returned boolean; the function is total (never throws). -/
def handleCopy (hasCanvas hasImage blobOk clipOk : Bool) :
    Bool × List ExportEvent :=
  if hasCanvas && hasImage then
    match encodeBlob blobOk with
    | Except.error _ =>
      (false, [ExportEvent.render false, ExportEvent.encodePng,
               ExportEvent.render true])
    | Except.ok _ =>
      match clipboardWrite clipOk with
      | Except.error _ =>
        (false, [ExportEvent.render false, ExportEvent.encodePng,
                 ExportEvent.writeClipboard, ExportEvent.render true])
      | Except.ok _ =>
        (true, [ExportEvent.render false, ExportEvent.encodePng,
                ExportEvent.writeClipboard, ExportEvent.render true])
  else (false, [])

/-- The `showControls` argument of the last `draw` call in a trace, if the
trace renders at all. -/
def lastRender (trace : List ExportEvent) : Option Bool :=
  (trace.filterMap (fun e =>
    match e with
    | ExportEvent.render b => some b
    | _ => none)).getLast?

/-- The visual radius of a control handle (`drawHandle`:
`const radius = BASE_HANDLE_RADIUS * uiScale`). -/
def visualHandleRadius (uiScale : ℝ) : ℝ :=
  BASE_HANDLE_RADIUS * uiScale

/-- The pointer-down event is consumed by a control affordance: a
selection exists, its hat and corners resolve, and at least one of the
four control circles (hit radius 1.5 times the visual handle radius)
contains the pointer.  When this fails, `handleMouseDown` falls through
to the instance hit test. -/
noncomputable def controlHit (uiScale : ℝ) (s : EditorState) (x y : ℝ) :
    Prop :=
  ∃ (sid : String) (hat : PlacedHat) (c : Corners),
    s.selectedHatId = some sid ∧
    s.hats.find? (fun h => h.uid = sid) = some hat ∧
    getTransformedCorners s.loadedImages hat = some c ∧
    (isPointInCircle x y c.tl.1 c.tl.2 (visualHandleRadius uiScale * 1.5) ∨
     isPointInCircle x y c.tr.1 c.tr.2 (visualHandleRadius uiScale * 1.5) ∨
     isPointInCircle x y c.br.1 c.br.2 (visualHandleRadius uiScale * 1.5) ∨
     isPointInCircle x y c.bl.1 c.bl.2 (visualHandleRadius uiScale * 1.5))

/-- Spec-side formula for comparison with `getTransformedCorners`: rotate
the point `(px, py)` about the origin by `θ` using
`x' = x cos θ − y sin θ`, `y' = x sin θ + y cos θ`, then translate by the
center `(cx, cy)`. -/
noncomputable def specRotateAbout (θ cx cy px py : ℝ) : ℝ × ℝ :=
  (px * Real.cos θ - py * Real.sin θ + cx,
   px * Real.sin θ + py * Real.cos θ + cy)

/-- Spec-side corner record for comparison with `getTransformedCorners`:
the four corners of the `w × h` box centered at the origin, each rotated
by `θ` and translated by `(cx, cy)`. -/
noncomputable def specCorners (cx cy w h θ : ℝ) : Corners :=
  { tl := specRotateAbout θ cx cy (-(w / 2)) (-(h / 2)),
    tr := specRotateAbout θ cx cy (w / 2) (-(h / 2)),
    br := specRotateAbout θ cx cy (w / 2) (h / 2),
    bl := specRotateAbout θ cx cy (-(w / 2)) (h / 2),
    width := w, height := h }

/-- Euclidean distance from a pointer position to an instance center, as
computed by `handleMouseMove` (`Math.sqrt(Math.pow(..,2)+Math.pow(..,2))`). -/
noncomputable def distToCenter (px py cx cy : ℝ) : ℝ :=
  Real.sqrt ((px - cx) ^ 2 + (py - cy) ^ 2)

/-- The scale produced by a scaling pointer-move, as a function of the
baseline scale, the baseline pointer distance and the current pointer
distance from the instance center. -/
noncomputable def scaleFromDist (startScale startDist dist : ℝ) : ℝ :=
  max 0.1 (startScale * (dist / startDist))

/-- One complete rotate gesture: pointer-down on the rotate handle at `b`
(capturing the baseline via `setStartInteraction`) followed by a
pointer-move to `p` in `ROTATE` mode. -/
noncomputable def rotateGesture (hat : PlacedHat) (b p : ℝ × ℝ) :
    PlacedHat :=
  moveHat Mode.ROTATE (captureStart hat b.1 b.2) p.1 p.2 hat

/-- A sample overlay definition (entry of `STATIC_HATS`). -/
def sampleHat : Hat :=
  { id := "hat-1", name := "style 1", src := "/hats/1.png" }

/-- A concrete selected hat for evaluating the pointer-down handler. -/
noncomputable def c3Hat : PlacedHat :=
  { id := "hat-1", name := "s", src := "/hats/1.png", uid := "a",
    x := 100, y := 100, scale := 1, rotation := 0, isMirrored := false }

/-- A concrete editor state: one selected hat over a loaded background. -/
noncomputable def c3State : EditorState :=
  { image := some (Img.mk 2048 2048), hats := [c3Hat],
    selectedHatId := some "a",
    loadedImages := fun p =>
      if p = "/hats/1.png" then some (Img.mk 100 40) else none,
    mode := Mode.NONE,
    startInteraction :=
      { mouseX := 0, mouseY := 0, startRotation := 0, startScale := 1,
        startX := 0, startY := 0 } }

/-- The initial state right after a 512-by-512 background was loaded. -/
noncomputable def bg512State : EditorState :=
  loadBackground initState { width := 512, height := 512 }

section Claims

/-- C1: for every placed instance whose raster is loaded,
`getTransformedCorners` returns the four corners of the
`rasterWidth*scale` by `rasterHeight*scale` box, each rotated about the
origin by the rotation converted to radians (using
`x' = x cos θ − y sin θ`, `y' = x sin θ + y cos θ`) and translated by the
instance center; in particular, for rotation 0, scale 1 and no mirroring
it is the axis-aligned box centered at `(x, y)` with the raster's native
width and height. -/
theorem c1_transformed_corners (li : String → Option Img) (hat : PlacedHat)
    (img : Img) (hli : li hat.src = some img) :
    getTransformedCorners li hat =
      some (specCorners hat.x hat.y (img.width * hat.scale)
        (img.height * hat.scale) (hat.rotation * Real.pi / 180)) ∧
    (hat.rotation = 0 → hat.scale = 1 → hat.isMirrored = false →
      getTransformedCorners li hat =
        some { tl := (hat.x - img.width / 2, hat.y - img.height / 2),
               tr := (hat.x + img.width / 2, hat.y - img.height / 2),
               br := (hat.x + img.width / 2, hat.y + img.height / 2),
               bl := (hat.x - img.width / 2, hat.y + img.height / 2),
               width := img.width, height := img.height }) := by
  constructor
  · simp only [getTransformedCorners, hli, specCorners, specRotateAbout]
  · intro hrot hscale _
    simp only [getTransformedCorners, hli, hrot, hscale, zero_mul,
      zero_div, Real.cos_zero, Real.sin_zero, Option.some.injEq,
      Corners.mk.injEq, Prod.mk.injEq]
    norm_num
    constructor
    · constructor <;> ring
    constructor
    · constructor <;> ring
    constructor
    · constructor <;> ring
    constructor <;> ring

/-- C1 witness: a concrete loaded raster, evaluated at rotation 0 and
scale 1. -/
theorem c1_transformed_corners_witness :
    getTransformedCorners
      (fun p => if p = "/hats/1.png" then some { width := 100, height := 40 } else none)
      { id := "hat-1", name := "style 1", src := "/hats/1.png", uid := "u1",
        x := 1024, y := 683, scale := 1, rotation := 0, isMirrored := false } =
      some { tl := (1024 - 100 / 2, 683 - 40 / 2),
             tr := (1024 + 100 / 2, 683 - 40 / 2),
             br := (1024 + 100 / 2, 683 + 40 / 2),
             bl := (1024 - 100 / 2, 683 + 40 / 2),
             width := 100, height := 40 } := by
  have hli :
      (fun p => if p = "/hats/1.png" then
        some (Img.mk 100 40) else none) "/hats/1.png" = some (Img.mk 100 40) := by
    simp
  exact (c1_transformed_corners
    (fun p => if p = "/hats/1.png" then some (Img.mk 100 40) else none)
    { id := "hat-1", name := "style 1", src := "/hats/1.png", uid := "u1",
      x := 1024, y := 683, scale := 1, rotation := 0, isMirrored := false }
    (Img.mk 100 40) hli).2 rfl rfl rfl

/-- C2: the backing-canvas dimensions are the native ones when the native
width is at least the 2048 floor, and otherwise both dimensions are scaled
by `2048 / nativeWidth`; a 512-by-512 background yields a 2048-by-2048
backing canvas, and adding an overlay with a 100-by-40 raster onto it
yields scale `(2048 * 0.35) / 100 = 7.168`, position `(1024, 2048 / 3)`,
rotation 0 and no mirroring. -/
theorem c2_render_dimensions_and_initial_placement :
    (∀ img : Img, 2048 ≤ img.width →
      (getRenderDimensions img).width = img.width ∧
      (getRenderDimensions img).height = img.height) ∧
    (∀ img : Img, 0 < img.width → img.width < 2048 →
      (getRenderDimensions img).width = img.width * (2048 / img.width) ∧
      (getRenderDimensions img).height = img.height * (2048 / img.width)) ∧
    ((getRenderDimensions (Img.mk 512 512)).width = 2048 ∧
     (getRenderDimensions (Img.mk 512 512)).height = 2048) ∧
    ((addHat bg512State sampleHat (Img.mk 100 40) "u1" 0 0).hats.map
        (fun h => (h.x, h.y, h.scale, h.rotation, h.isMirrored)) =
      [(1024, 2048 / 3, (2048 * 0.35) / 100, 0, false)] ∧
     ((2048 : ℝ) * 0.35) / 100 = 7.168) := by
  refine ⟨?_, ?_, ?_, ?_, ?_⟩
  · intro img h
    rw [getRenderDimensions, if_pos (by exact h)]
    exact ⟨rfl, rfl⟩
  · intro img h0 h2048
    rw [getRenderDimensions, if_neg (by rw [MIN_CANVAS_WIDTH]; exact not_le.mpr h2048)]
    constructor
    · show MIN_CANVAS_WIDTH = img.width * (2048 / img.width)
      rw [MIN_CANVAS_WIDTH]
      field_simp
    · rfl
  · rw [getRenderDimensions, if_neg (by rw [MIN_CANVAS_WIDTH]; norm_num)]
    constructor
    · rfl
    · show (512 : ℝ) * (MIN_CANVAS_WIDTH / 512) = 2048
      rw [MIN_CANVAS_WIDTH]; norm_num
  · simp only [addHat, bg512State, loadBackground, initState, sampleHat,
      getRenderDimensions, MIN_CANVAS_WIDTH]
    norm_num
  · norm_num

/-- C2 witness: the floor branch at a 4096-wide background and the
upscaling branch at the 512-wide one. -/
theorem c2_render_dimensions_witness :
    (getRenderDimensions (Img.mk 4096 100)).width = 4096 ∧
    (getRenderDimensions (Img.mk 512 512)).height = 512 * (2048 / 512) := by
  refine ⟨(c2_render_dimensions_and_initial_placement.1
      (Img.mk 4096 100) (by norm_num)).1,
    (c2_render_dimensions_and_initial_placement.2.1
      (Img.mk 512 512) (by norm_num) (by norm_num)).2⟩

/-- C6: loading a new background image resets the placed hats to empty and
the selection to none, whatever the prior scene contained. -/
theorem c6_load_background_resets (s : EditorState) (img : Img) :
    (loadBackground s img).hats = [] ∧
    (loadBackground s img).selectedHatId = none ∧
    (loadBackground s img).image = some img :=
  ⟨rfl, rfl, rfl⟩

/-- C10: a pointer-down without a loaded background is a complete no-op
(the handler returns before reading the pointer), so any sequence of
pointer events from an idle state leaves the scene untouched, while a hat
added without a background sits at the fixed default position `(400, 300)`
at scale 1. -/
theorem c10_pointer_down_requires_background :
    (∀ (uiScale : ℝ) (s : EditorState) (x y : ℝ), s.image = none →
      handleMouseDown uiScale s x y = s) ∧
    (∀ (s : EditorState) (ops : List Op), s.image = none →
      s.mode = Mode.NONE →
      (∀ op ∈ ops, (∃ u x y, op = Op.pointerDown u x y) ∨
        (∃ x y, op = Op.pointerMove x y) ∨ op = Op.pointerUp) →
      run s ops = s) ∧
    (∀ (s : EditorState) (hat : Hat) (img : Img) (uid : String) (jx jy : ℝ),
      s.image = none →
      ∃ nh, (addHat s hat img uid jx jy).hats = s.hats ++ [nh] ∧
        nh.x = 400 ∧ nh.y = 300 ∧ nh.scale = 1) := by
  have hdown : ∀ (uiScale : ℝ) (s : EditorState) (x y : ℝ),
      s.image = none → handleMouseDown uiScale s x y = s := by
    intro uiScale s x y h
    rw [handleMouseDown, h]
  have hmove : ∀ (s : EditorState) (x y : ℝ), s.mode = Mode.NONE →
      handleMouseMove s x y = s := by
    intro s x y h
    rw [handleMouseMove, if_pos h]
  have hup : ∀ s : EditorState, s.mode = Mode.NONE →
      handleMouseUp s = s := by
    intro s h
    rw [handleMouseUp, ← h]
  refine ⟨hdown, ?_, ?_⟩
  · intro s ops
    induction ops generalizing s with
    | nil => intro _ _ _; rfl
    | cons op rest ih =>
      intro himg hmode hptr
      have hop := hptr op (List.mem_cons_self op rest)
      have hrest : ∀ o ∈ rest, (∃ u x y, o = Op.pointerDown u x y) ∨
          (∃ x y, o = Op.pointerMove x y) ∨ o = Op.pointerUp :=
        fun o ho => hptr o (List.mem_cons_of_mem op ho)
      have hstep : step s op = s := by
        rcases hop with ⟨u, x, y, rfl⟩ | ⟨x, y, rfl⟩ | rfl
        · exact hdown u s x y himg
        · exact hmove s x y hmode
        · exact hup s hmode
      show run s (op :: rest) = s
      rw [run, List.foldl_cons, hstep]
      exact ih s himg hmode hrest
  · intro s hat img uid jx jy h
    refine ⟨{ id := hat.id, name := hat.name, src := hat.src, uid := uid,
              x := 400, y := 300, scale := 1, rotation := 0,
              isMirrored := false }, ?_, rfl, rfl, rfl⟩
    rw [addHat, h]

/-- C10 witness: pointer events on the empty initial state change
nothing, and a hat added there lands at `(400, 300)` at scale 1. -/
theorem c10_pointer_down_requires_background_witness :
    handleMouseDown 1 initState 100 100 = initState ∧
    run initState [Op.pointerDown 1 5 5, Op.pointerMove 9 9, Op.pointerUp]
      = initState ∧
    ∃ nh, (addHat initState sampleHat (Img.mk 100 40) "u1" 0 0).hats =
        initState.hats ++ [nh] ∧ nh.x = 400 ∧ nh.y = 300 ∧ nh.scale = 1 := by
  refine ⟨c10_pointer_down_requires_background.1 1 initState 100 100 rfl,
    c10_pointer_down_requires_background.2.1 initState _ rfl rfl ?_,
    c10_pointer_down_requires_background.2.2 initState sampleHat
      (Img.mk 100 40) "u1" 0 0 rfl⟩
  intro op hop
  simp only [List.mem_cons, List.mem_singleton] at hop
  rcases hop with rfl | rfl | rfl | h
  · exact Or.inl ⟨1, 5, 5, rfl⟩
  · exact Or.inr (Or.inl ⟨9, 9, rfl⟩)
  · exact Or.inr (Or.inr rfl)
  · cases h

/-- C4 counterexample: the scale produced by a scaling pointer-move is not
strictly increasing in the pointer distance from the center: with baseline
scale 0.1 and baseline distance 1, the current distances 1/4 and 1/2
differ, yet both produce the floored scale 0.1. -/
theorem c4_counterexample :
    distToCenter (1 / 4) 0 0 0 < distToCenter (1 / 2) 0 0 0 ∧
    (moveHat Mode.SCALE
        { mouseX := 1, mouseY := 0, startRotation := 0, startScale := 0.1,
          startX := 0, startY := 0 } (1 / 4) 0
        { id := "hat-1", name := "s", src := "/hats/1.png", uid := "a",
          x := 0, y := 0, scale := 0.1, rotation := 0,
          isMirrored := false }).scale = 0.1 ∧
    (moveHat Mode.SCALE
        { mouseX := 1, mouseY := 0, startRotation := 0, startScale := 0.1,
          startX := 0, startY := 0 } (1 / 2) 0
        { id := "hat-1", name := "s", src := "/hats/1.png", uid := "a",
          x := 0, y := 0, scale := 0.1, rotation := 0,
          isMirrored := false }).scale = 0.1 := by
  have hq : ∀ a : ℝ, 0 ≤ a → Real.sqrt ((a - 0) ^ 2 + (0 - 0) ^ 2) = a := by
    intro a ha
    rw [show (a - 0) ^ 2 + ((0 : ℝ) - 0) ^ 2 = a ^ 2 by ring]
    exact Real.sqrt_sq ha
  have h14 := hq (1 / 4) (by norm_num)
  have h12 := hq (1 / 2) (by norm_num)
  have h1 := hq 1 (by norm_num)
  refine ⟨?_, ?_, ?_⟩
  · rw [distToCenter, distToCenter, h14, h12]
    norm_num
  · show max 0.1 (0.1 * (Real.sqrt ((1 / 4 - 0) ^ 2 + (0 - 0) ^ 2) /
      Real.sqrt ((1 - 0) ^ 2 + (0 - 0) ^ 2))) = 0.1
    rw [h14, h1]
    rw [max_eq_left (by norm_num)]
  · show max 0.1 (0.1 * (Real.sqrt ((1 / 2 - 0) ^ 2 + (0 - 0) ^ 2) /
      Real.sqrt ((1 - 0) ^ 2 + (0 - 0) ^ 2))) = 0.1
    rw [h12, h1]
    rw [max_eq_left (by norm_num)]

/-- C4 (amended): a scaling pointer-move sets the scale to
`max(0.1, baselineScale * (currentDistance / baselineDistance))`; for
positive baseline scale and baseline distance this is monotone
non-decreasing in the current distance (strictly increasing once the
unfloored value reaches the 0.1 floor), and the result is always at least
0.1, hence never non-positive. -/
theorem c4_scale_floored_monotone :
    (∀ (si : StartInteraction) (x y : ℝ) (hat : PlacedHat),
      (moveHat Mode.SCALE si x y hat).scale =
        scaleFromDist si.startScale
          (distToCenter si.mouseX si.mouseY hat.x hat.y)
          (distToCenter x y hat.x hat.y)) ∧
    (∀ (s : EditorState) (sid : String) (x y : ℝ), s.mode = Mode.SCALE →
      s.selectedHatId = some sid →
      (handleMouseMove s x y).hats = s.hats.map (fun h =>
        if h.uid = sid then moveHat Mode.SCALE s.startInteraction x y h
        else h)) ∧
    (∀ c d0 : ℝ, 0 < c → 0 < d0 → Monotone (scaleFromDist c d0)) ∧
    (∀ c d0 d1 d2 : ℝ, 0 < c → 0 < d0 → 0.1 ≤ c * (d1 / d0) → d1 < d2 →
      scaleFromDist c d0 d1 < scaleFromDist c d0 d2) ∧
    (∀ c d0 d : ℝ, 0.1 ≤ scaleFromDist c d0 d ∧ 0 < scaleFromDist c d0 d) := by
  refine ⟨?_, ?_, ?_, ?_, ?_⟩
  · intro si x y hat
    rfl
  · intro s sid x y hm hsel
    rw [handleMouseMove, if_neg (by rw [hm]; intro h; cases h), hsel, hm]
  · intro c d0 hc hd0 a b hab
    have : c * (a / d0) ≤ c * (b / d0) := by
      apply mul_le_mul_of_nonneg_left _ hc.le
      exact div_le_div_of_nonneg_right hab hd0.le
    exact max_le_max le_rfl this
  · intro c d0 d1 d2 hc hd0 hfloor h12
    have key : c * (d1 / d0) < c * (d2 / d0) := by gcongr
    rw [scaleFromDist, scaleFromDist, max_eq_right hfloor]
    exact lt_of_lt_of_le key (le_max_right _ _)
  · intro c d0 d
    exact ⟨le_max_left _ _, lt_of_lt_of_le (by norm_num) (le_max_left _ _)⟩

/-- C4 witness: strict growth above the floor at baseline scale 1 and
baseline distance 1, between current distances 1 and 2. -/
theorem c4_scale_floored_monotone_witness :
    scaleFromDist 1 1 1 < scaleFromDist 1 1 2 ∧
    0.1 ≤ scaleFromDist 1 1 1 ∧ 0 < scaleFromDist 1 1 1 := by
  refine ⟨c4_scale_floored_monotone.2.2.2.1 1 1 1 2 one_pos one_pos
      (by norm_num) (by norm_num),
    (c4_scale_floored_monotone.2.2.2.2 1 1 1).1,
    (c4_scale_floored_monotone.2.2.2.2 1 1 1).2⟩

end Claims

/-- `Math.atan2(1, 0) = π / 2`, i.e. 90 degrees. -/
theorem atan2deg_one_zero : atan2deg 1 0 = 90 := by
  rw [atan2deg, atan2]
  norm_num
  field_simp
  ring

/-- `Math.atan2(0, 1) = 0` degrees. -/
theorem atan2deg_zero_one : atan2deg 0 1 = 0 := by
  rw [atan2deg, atan2]
  norm_num

section Claims2

/-- C5: a rotate pointer-move sets the rotation to the baseline rotation
plus the raw pointer-angle delta about the instance center (never reduced
modulo 360); a rotate gesture does not move the center; two successive
gestures whose angle deltas cancel restore the original rotation exactly;
and a gesture of delta 90 on a hat at rotation 350 stores 440. -/
theorem c5_rotation_additive :
    (∀ (si : StartInteraction) (x y : ℝ) (hat : PlacedHat),
      (moveHat Mode.ROTATE si x y hat).rotation =
        si.startRotation +
          (atan2deg (y - hat.y) (x - hat.x) -
           atan2deg (si.mouseY - hat.y) (si.mouseX - hat.x))) ∧
    (∀ (hat : PlacedHat) (b p : ℝ × ℝ),
      (rotateGesture hat b p).x = hat.x ∧
      (rotateGesture hat b p).y = hat.y) ∧
    (∀ (hat : PlacedHat) (b1 p1 b2 p2 : ℝ × ℝ),
      atan2deg (p2.2 - (rotateGesture hat b1 p1).y)
          (p2.1 - (rotateGesture hat b1 p1).x) -
        atan2deg (b2.2 - (rotateGesture hat b1 p1).y)
          (b2.1 - (rotateGesture hat b1 p1).x) =
        -(atan2deg (p1.2 - hat.y) (p1.1 - hat.x) -
          atan2deg (b1.2 - hat.y) (b1.1 - hat.x)) →
      (rotateGesture (rotateGesture hat b1 p1) b2 p2).rotation =
        hat.rotation) ∧
    (rotateGesture
        { id := "hat-1", name := "s", src := "/hats/1.png", uid := "a",
          x := 0, y := 0, scale := 1, rotation := 350, isMirrored := false }
        (1, 0) (0, 1)).rotation = 440 := by
  refine ⟨?_, ?_, ?_, ?_⟩
  · intro si x y hat
    rfl
  · intro hat b p
    exact ⟨rfl, rfl⟩
  · intro hat b1 p1 b2 p2 hδ
    simp only [rotateGesture, moveHat, captureStart] at hδ ⊢
    linarith
  · show (350 : ℝ) + (atan2deg (1 - 0) (0 - 0) - atan2deg (0 - 0) (1 - 0)) = 440
    norm_num [atan2deg_one_zero, atan2deg_zero_one]

/-- C5 witness: a +90-degree gesture followed by a −90-degree gesture on a
hat at rotation 30 restores rotation 30. -/
theorem c5_rotation_additive_witness :
    (rotateGesture (rotateGesture
        { id := "hat-1", name := "s", src := "/hats/1.png", uid := "a",
          x := 0, y := 0, scale := 1, rotation := 30, isMirrored := false }
        (1, 0) (0, 1)) (0, 1) (1, 0)).rotation = 30 := by
  apply c5_rotation_additive.2.2.1
  show atan2deg (0 - 0) (1 - 0) - atan2deg (1 - 0) (0 - 0) =
    -(atan2deg (1 - 0) (0 - 0) - atan2deg (0 - 0) (1 - 0))
  norm_num [atan2deg_one_zero, atan2deg_zero_one]

/-- When no control circle consumes a pointer-down (no selection, or the
selected hat or its corners do not resolve, or all four circles miss),
the handler falls through to the instance hit test. -/
theorem handleMouseDown_fallthrough (uiScale : ℝ) (s : EditorState)
    (x y : ℝ) (bg : Img) (himg : s.image = some bg)
    (hnc : ¬ controlHit uiScale s x y) :
    handleMouseDown uiScale s x y = hatHitFallback s x y := by
  rcases hsel : s.selectedHatId with _ | sid
  · simp only [handleMouseDown, himg, hsel]
  rcases hfind : s.hats.find? (fun h => h.uid = sid) with _ | hat
  · simp only [handleMouseDown, himg, hsel, hfind]
  rcases hc : getTransformedCorners s.loadedImages hat with _ | c
  · simp only [handleMouseDown, himg, hsel, hfind, hc]
  have h1 : ¬ isPointInCircle x y c.tl.1 c.tl.2
      (BASE_HANDLE_RADIUS * uiScale * 1.5) :=
    fun h => hnc ⟨sid, hat, c, hsel, hfind, hc, Or.inl h⟩
  have h2 : ¬ isPointInCircle x y c.tr.1 c.tr.2
      (BASE_HANDLE_RADIUS * uiScale * 1.5) :=
    fun h => hnc ⟨sid, hat, c, hsel, hfind, hc, Or.inr (Or.inl h)⟩
  have h3 : ¬ isPointInCircle x y c.br.1 c.br.2
      (BASE_HANDLE_RADIUS * uiScale * 1.5) :=
    fun h => hnc ⟨sid, hat, c, hsel, hfind, hc, Or.inr (Or.inr (Or.inl h))⟩
  have h4 : ¬ isPointInCircle x y c.bl.1 c.bl.2
      (BASE_HANDLE_RADIUS * uiScale * 1.5) :=
    fun h => hnc ⟨sid, hat, c, hsel, hfind, hc, Or.inr (Or.inr (Or.inr h))⟩
  simp only [handleMouseDown, himg, hsel, hfind, hc]
  rw [if_neg h1, if_neg h2, if_neg h3, if_neg h4]

/-- C3: with a background loaded, pointer-down hit testing follows a
strict priority order.  With a selection, the four control circles are
tested first, each with hit radius 1.5 times the visual handle radius, in
the order delete, rotate, scale, mirror, first hit winning: delete removes
the instance and returns to idle, rotate and scale capture a baseline and
enter the matching mode, mirror toggles immediately.  Otherwise — with no
selection, or when the selection's control circles are all missed (or its
hat or corners do not resolve) — the topmost hit instance is selected,
brought to the front of the z-order and dragging starts; with no hit at
all the selection is cleared. -/
theorem c3_pointer_down_priority (uiScale : ℝ) (s : EditorState) (x y : ℝ)
    (bg : Img) (himg : s.image = some bg) :
    (∀ (sid : String) (hat : PlacedHat) (c : Corners),
      s.selectedHatId = some sid →
      s.hats.find? (fun h => h.uid = sid) = some hat →
      getTransformedCorners s.loadedImages hat = some c →
      isPointInCircle x y c.tl.1 c.tl.2 (visualHandleRadius uiScale * 1.5) →
      handleMouseDown uiScale s x y = deleteSelectedHat s) ∧
    (∀ (sid : String) (hat : PlacedHat) (c : Corners),
      s.selectedHatId = some sid →
      s.hats.find? (fun h => h.uid = sid) = some hat →
      getTransformedCorners s.loadedImages hat = some c →
      ¬ isPointInCircle x y c.tl.1 c.tl.2 (visualHandleRadius uiScale * 1.5) →
      isPointInCircle x y c.tr.1 c.tr.2 (visualHandleRadius uiScale * 1.5) →
      handleMouseDown uiScale s x y =
        { s with mode := Mode.ROTATE,
                 startInteraction := captureStart hat x y }) ∧
    (∀ (sid : String) (hat : PlacedHat) (c : Corners),
      s.selectedHatId = some sid →
      s.hats.find? (fun h => h.uid = sid) = some hat →
      getTransformedCorners s.loadedImages hat = some c →
      ¬ isPointInCircle x y c.tl.1 c.tl.2 (visualHandleRadius uiScale * 1.5) →
      ¬ isPointInCircle x y c.tr.1 c.tr.2 (visualHandleRadius uiScale * 1.5) →
      isPointInCircle x y c.br.1 c.br.2 (visualHandleRadius uiScale * 1.5) →
      handleMouseDown uiScale s x y =
        { s with mode := Mode.SCALE,
                 startInteraction := captureStart hat x y }) ∧
    (∀ (sid : String) (hat : PlacedHat) (c : Corners),
      s.selectedHatId = some sid →
      s.hats.find? (fun h => h.uid = sid) = some hat →
      getTransformedCorners s.loadedImages hat = some c →
      ¬ isPointInCircle x y c.tl.1 c.tl.2 (visualHandleRadius uiScale * 1.5) →
      ¬ isPointInCircle x y c.tr.1 c.tr.2 (visualHandleRadius uiScale * 1.5) →
      ¬ isPointInCircle x y c.br.1 c.br.2 (visualHandleRadius uiScale * 1.5) →
      isPointInCircle x y c.bl.1 c.bl.2 (visualHandleRadius uiScale * 1.5) →
      handleMouseDown uiScale s x y = toggleMirrorSelected s) ∧
    (¬ controlHit uiScale s x y →
      ∀ hat : PlacedHat, findHitHat s.loadedImages x y s.hats = some hat →
        handleMouseDown uiScale s x y =
          { s with selectedHatId := some hat.uid,
                   hats := s.hats.filter (fun h => h.uid ≠ hat.uid) ++ [hat],
                   mode := Mode.DRAG,
                   startInteraction := captureStart hat x y }) ∧
    (¬ controlHit uiScale s x y →
      findHitHat s.loadedImages x y s.hats = none →
      handleMouseDown uiScale s x y = { s with selectedHatId := none }) := by
  refine ⟨?_, ?_, ?_, ?_, ?_, ?_⟩
  · intro sid hat c hsel hfind hcorners htl
    rw [show visualHandleRadius uiScale * 1.5 =
      BASE_HANDLE_RADIUS * uiScale * 1.5 from rfl] at htl
    simp only [handleMouseDown, himg, hsel, hfind, hcorners]
    rw [if_pos htl]
  · intro sid hat c hsel hfind hcorners htl htr
    rw [show visualHandleRadius uiScale * 1.5 =
      BASE_HANDLE_RADIUS * uiScale * 1.5 from rfl] at htl htr
    simp only [handleMouseDown, himg, hsel, hfind, hcorners]
    rw [if_neg htl, if_pos htr]
  · intro sid hat c hsel hfind hcorners htl htr hbr
    rw [show visualHandleRadius uiScale * 1.5 =
      BASE_HANDLE_RADIUS * uiScale * 1.5 from rfl] at htl htr hbr
    simp only [handleMouseDown, himg, hsel, hfind, hcorners]
    rw [if_neg htl, if_neg htr, if_pos hbr]
  · intro sid hat c hsel hfind hcorners htl htr hbr hbl
    rw [show visualHandleRadius uiScale * 1.5 =
      BASE_HANDLE_RADIUS * uiScale * 1.5 from rfl] at htl htr hbr hbl
    simp only [handleMouseDown, himg, hsel, hfind, hcorners,
      toggleMirrorSelected]
    rw [if_neg htl, if_neg htr, if_neg hbr, if_pos hbl]
  · intro hnc hat hfound
    rw [handleMouseDown_fallthrough uiScale s x y bg himg hnc]
    simp only [hatHitFallback, hfound]
  · intro hnc hfound
    rw [handleMouseDown_fallthrough uiScale s x y bg himg hnc]
    simp only [hatHitFallback, hfound]

end Claims2


section Claims3

/-- C3 witness: clicking exactly on the delete handle (the top-left corner
of the selected hat) removes the hat, clears the selection and returns to
the idle mode; clicking far away while the same hat is still selected
misses every control circle and every instance, and clears the selection
without touching the hats. -/
theorem c3_pointer_down_priority_witness :
    ((handleMouseDown 1 c3State 50 80).hats = [] ∧
     (handleMouseDown 1 c3State 50 80).selectedHatId = none ∧
     (handleMouseDown 1 c3State 50 80).mode = Mode.NONE) ∧
    ((handleMouseDown 1 c3State 2000 2000).selectedHatId = none ∧
     (handleMouseDown 1 c3State 2000 2000).hats = c3State.hats) := by
  have hfind : c3State.hats.find? (fun h => h.uid = "a") = some c3Hat := by
    simp [c3State, List.find?, c3Hat]
  have hli : c3State.loadedImages "/hats/1.png" = some (Img.mk 100 40) := by
    simp [c3State]
  have hcorners : getTransformedCorners c3State.loadedImages c3Hat =
      some { tl := (50, 80), tr := (150, 80), br := (150, 120),
             bl := (50, 120), width := 100, height := 40 } := by
    simp only [getTransformedCorners, c3Hat, hli, zero_mul, zero_div,
      Real.cos_zero, Real.sin_zero, Option.some.injEq, Corners.mk.injEq,
      Prod.mk.injEq]
    norm_num
  constructor
  · have htl : isPointInCircle 50 80 50 80 (visualHandleRadius 1 * 1.5) := by
      show Real.sqrt (((50 : ℝ) - 50) ^ 2 + ((80 : ℝ) - 80) ^ 2) ≤
        visualHandleRadius 1 * 1.5
      rw [show ((50 : ℝ) - 50) ^ 2 + ((80 : ℝ) - 80) ^ 2 = 0 by ring,
        Real.sqrt_zero, visualHandleRadius, BASE_HANDLE_RADIUS]
      norm_num
    have heq := (c3_pointer_down_priority 1 c3State 50 80 (Img.mk 2048 2048)
      rfl).1 "a" c3Hat _ rfl hfind hcorners htl
    rw [heq]
    refine ⟨?_, rfl, rfl⟩
    show (c3State.hats.filter (fun h => h.uid ≠ "a")) = []
    simp [c3State, c3Hat]
  · have hfar : ∀ cx cy : ℝ, 324 < (2000 - cx) ^ 2 + (2000 - cy) ^ 2 →
        ¬ isPointInCircle 2000 2000 cx cy (visualHandleRadius 1 * 1.5) := by
      intro cx cy hD h
      rw [isPointInCircle,
        show visualHandleRadius 1 * 1.5 = 18 by
          rw [visualHandleRadius, BASE_HANDLE_RADIUS]; norm_num] at h
      have h18 : (18 : ℝ) < Real.sqrt ((2000 - cx) ^ 2 + (2000 - cy) ^ 2) := by
        rw [show (18 : ℝ) = Real.sqrt 324 by
          rw [show (324 : ℝ) = 18 ^ 2 by norm_num]
          exact (Real.sqrt_sq (by norm_num)).symm]
        exact Real.sqrt_lt_sqrt (by norm_num) hD
      exact absurd h (not_le.mpr h18)
    have hnc : ¬ controlHit 1 c3State 2000 2000 := by
      rintro ⟨sid, hat, c, hsel, hfind2, hc, hcirc⟩
      have hsid : sid = "a" :=
        (Option.some.inj (hsel : (some "a" : Option String) = some sid)).symm
      subst hsid
      rw [hfind] at hfind2
      have hhat : hat = c3Hat := (Option.some.inj hfind2).symm
      subst hhat
      rw [hcorners] at hc
      have hcc := Option.some.inj hc
      subst hcc
      rcases hcirc with h | h | h | h
      · exact hfar 50 80 (by norm_num) h
      · exact hfar 150 80 (by norm_num) h
      · exact hfar 150 120 (by norm_num) h
      · exact hfar 50 120 (by norm_num) h
    have hnh : ¬ hatHit c3State.loadedImages 2000 2000 c3Hat := by
      simp only [hatHit, c3Hat, hli, neg_zero, zero_mul, zero_div,
        Real.cos_zero, Real.sin_zero]
      norm_num
    have hfind_none :
        findHitHat c3State.loadedImages 2000 2000 c3State.hats = none := by
      rw [show c3State.hats = [c3Hat] from rfl]
      simp only [findHitHat]
      rw [if_neg hnh]
    have heq := (c3_pointer_down_priority 1 c3State 2000 2000
      (Img.mk 2048 2048) rfl).2.2.2.2.2 hnc hfind_none
    rw [heq]
    exact ⟨rfl, rfl⟩

end Claims3

/-- `moveHat` never changes the instance id. -/
theorem moveHat_uid (m : Mode) (si : StartInteraction) (x y : ℝ)
    (hat : PlacedHat) : (moveHat m si x y hat).uid = hat.uid := by
  cases m <;> rfl

/-- Mapping a uid-preserving function over the hats preserves the uid
list. -/
theorem map_uid_preserving (f : PlacedHat → PlacedHat)
    (hf : ∀ h, (f h).uid = h.uid) (l : List PlacedHat) :
    (l.map f).map (fun h => h.uid) = l.map (fun h => h.uid) := by
  induction l with
  | nil => rfl
  | cons a t ih => simp [hf a, ih]

/-- A pointer-down always results in one of: the unchanged state, the
instance-hit fallback, a delete, a rotate or scale baseline capture, or a
mirror toggle of the selected hat. -/
theorem handleMouseDown_cases (uiScale : ℝ) (s : EditorState) (x y : ℝ) :
    handleMouseDown uiScale s x y = s ∨
    handleMouseDown uiScale s x y = hatHitFallback s x y ∨
    handleMouseDown uiScale s x y = deleteSelectedHat s ∨
    (∃ hat, handleMouseDown uiScale s x y =
      { s with mode := Mode.ROTATE,
               startInteraction := captureStart hat x y }) ∨
    (∃ hat, handleMouseDown uiScale s x y =
      { s with mode := Mode.SCALE,
               startInteraction := captureStart hat x y }) ∨
    (∃ sid, s.selectedHatId = some sid ∧
      handleMouseDown uiScale s x y =
        { s with hats := s.hats.map (fun h =>
            if h.uid = sid then { h with isMirrored := !h.isMirrored }
            else h) }) := by
  rcases hi : s.image with _ | bg
  · exact Or.inl (by rw [handleMouseDown, hi])
  rcases hsel : s.selectedHatId with _ | sid
  · exact Or.inr (Or.inl (by simp only [handleMouseDown, hi, hsel]))
  rcases hfind : s.hats.find? (fun h => h.uid = sid) with _ | hat
  · exact Or.inr (Or.inl (by simp only [handleMouseDown, hi, hsel, hfind]))
  rcases hc : getTransformedCorners s.loadedImages hat with _ | c
  · exact Or.inr (Or.inl
      (by simp only [handleMouseDown, hi, hsel, hfind, hc]))
  by_cases h1 : isPointInCircle x y c.tl.1 c.tl.2
    (BASE_HANDLE_RADIUS * uiScale * 1.5)
  · exact Or.inr (Or.inr (Or.inl (by
      simp only [handleMouseDown, hi, hsel, hfind, hc]
      rw [if_pos h1])))
  by_cases h2 : isPointInCircle x y c.tr.1 c.tr.2
    (BASE_HANDLE_RADIUS * uiScale * 1.5)
  · refine Or.inr (Or.inr (Or.inr (Or.inl ⟨hat, ?_⟩)))
    simp only [handleMouseDown, hi, hsel, hfind, hc]
    rw [if_neg h1, if_pos h2]
  by_cases h3 : isPointInCircle x y c.br.1 c.br.2
    (BASE_HANDLE_RADIUS * uiScale * 1.5)
  · refine Or.inr (Or.inr (Or.inr (Or.inr (Or.inl ⟨hat, ?_⟩))))
    simp only [handleMouseDown, hi, hsel, hfind, hc]
    rw [if_neg h1, if_neg h2, if_pos h3]
  by_cases h4 : isPointInCircle x y c.bl.1 c.bl.2
    (BASE_HANDLE_RADIUS * uiScale * 1.5)
  · refine Or.inr (Or.inr (Or.inr (Or.inr (Or.inr ⟨sid, rfl, ?_⟩))))
    simp only [handleMouseDown, hi, hsel, hfind, hc]
    rw [if_neg h1, if_neg h2, if_neg h3, if_pos h4]
  · refine Or.inr (Or.inl ?_)
    simp only [handleMouseDown, hi, hsel, hfind, hc]
    rw [if_neg h1, if_neg h2, if_neg h3, if_neg h4]

/-- The instance-hit fallback preserves selection validity. -/
theorem selInv_hatHitFallback (s : EditorState) (x y : ℝ) :
    SelInv (hatHitFallback s x y) := by
  rw [hatHitFallback]
  rcases hfind : findHitHat s.loadedImages x y s.hats with _ | hat
  · intro u hu
    exact Option.noConfusion hu
  · intro u hu
    have : hat.uid = u := Option.some.inj hu
    subst this
    simp

/-- Every scene mutator preserves selection validity. -/
theorem selInv_step (s : EditorState) (op : Op) (h : SelInv s) :
    SelInv (step s op) := by
  cases op with
  | addOverlay hat img uid jx jy =>
    show SelInv (addHat s hat img uid jx jy)
    rw [addHat]
    intro u hu
    have : uid = u := Option.some.inj hu
    subst this
    simp
  | pointerDown uiScale x y =>
    show SelInv (handleMouseDown uiScale s x y)
    rcases handleMouseDown_cases uiScale s x y with
      he | he | he | ⟨hat, he⟩ | ⟨hat, he⟩ | ⟨sid, hsel, he⟩ <;> rw [he]
    · exact h
    · exact selInv_hatHitFallback s x y
    · rw [deleteSelectedHat]
      rcases hsel : s.selectedHatId with _ | sid
      · exact h
      · intro u hu
        exact Option.noConfusion hu
    · exact fun u hu => h u hu
    · exact fun u hu => h u hu
    · intro u hu
      have hm := h u hu
      rwa [map_uid_preserving _ (fun hh => by
        by_cases hq : hh.uid = sid <;> simp [hq])]
  | pointerMove x y =>
    show SelInv (handleMouseMove s x y)
    rw [handleMouseMove]
    split_ifs with hm
    · exact h
    rcases hsel : s.selectedHatId with _ | sid
    · exact h
    intro u hu
    have hm2 := h u (hsel.trans hu)
    rwa [map_uid_preserving _ (fun hh => by
      by_cases hq : hh.uid = sid <;> simp [hq, moveHat_uid])]
  | pointerUp =>
    exact fun u hu => h u hu
  | deleteSel =>
    show SelInv (deleteSelectedHat s)
    rw [deleteSelectedHat]
    rcases hsel : s.selectedHatId with _ | sid
    · exact h
    · intro u hu
      exact Option.noConfusion hu
  | toggleMir =>
    show SelInv (toggleMirrorSelected s)
    rw [toggleMirrorSelected]
    rcases hsel : s.selectedHatId with _ | sid
    · exact h
    · intro u hu
      have hm := h u (hsel.trans hu)
      rwa [map_uid_preserving _ (fun hh => by
        by_cases hq : hh.uid = sid <;> simp [hq])]
  | loadBg img =>
    intro u hu
    exact Option.noConfusion hu

/-- Selection validity is preserved by any sequence of mutators. -/
theorem selInv_run (ops : List Op) (s : EditorState) (h : SelInv s) :
    SelInv (run s ops) := by
  induction ops generalizing s with
  | nil => exact h
  | cons op rest ih =>
    show SelInv (run (step s op) rest)
    exact ih (step s op) (selInv_step s op h)

/-- Filtering out a uid that occurs in a duplicate-free list removes
exactly one element. -/
theorem length_filter_ne (l : List PlacedHat) (u : String)
    (nd : (l.map (fun h => h.uid)).Nodup)
    (hu : u ∈ l.map (fun h => h.uid)) :
    (l.filter (fun h => h.uid ≠ u)).length = l.length - 1 := by
  induction l with
  | nil => simp at hu
  | cons a t ih =>
    simp only [List.map_cons, List.nodup_cons] at nd
    obtain ⟨hna, ndt⟩ := nd
    simp only [List.map_cons, List.mem_cons] at hu
    by_cases hau : a.uid = u
    · have ht : t.filter (fun h => h.uid ≠ u) = t := by
        apply List.filter_eq_self.mpr
        intro b hb
        simp only [ne_eq, decide_eq_true_eq]
        intro hbu
        exact hna (List.mem_map.mpr ⟨b, hb, by rw [hbu, hau]⟩)
      rw [List.filter_cons, if_neg (by simp [hau]), ht]
      simp
    · have hu2 : u ∈ t.map (fun h => h.uid) :=
        hu.resolve_left (fun he => hau he.symm)
      have hlen := ih ndt hu2
      have htne : t ≠ [] := by
        intro he
        rw [he] at hu2
        simp at hu2
      have hpos : 0 < t.length := List.length_pos.mpr htne
      rw [List.filter_cons, if_pos (by simp [hau]), List.length_cons, hlen]
      simp only [List.length_cons]
      omega

section Claims4

/-- C7: in every state reachable by the scene mutators, a present
selection references a placed hat; deleting the selected instance removes
exactly the entries with that uid (exactly one when uids are
duplicate-free), clears the selection and returns to idle; delete with no
selection is a no-op. -/
theorem c7_selection_invariant :
    (∀ (s : EditorState) (ops : List Op), SelInv s → SelInv (run s ops)) ∧
    (∀ (s : EditorState) (u : String), s.selectedHatId = some u →
      (deleteSelectedHat s).hats = s.hats.filter (fun h => h.uid ≠ u) ∧
      (deleteSelectedHat s).selectedHatId = none ∧
      (deleteSelectedHat s).mode = Mode.NONE) ∧
    (∀ (s : EditorState) (u : String), s.selectedHatId = some u →
      (s.hats.map (fun h => h.uid)).Nodup →
      u ∈ s.hats.map (fun h => h.uid) →
      (deleteSelectedHat s).hats.length = s.hats.length - 1) ∧
    (∀ s : EditorState, s.selectedHatId = none → deleteSelectedHat s = s) := by
  refine ⟨fun s ops h => selInv_run ops s h, ?_, ?_, ?_⟩
  · intro s u hsel
    rw [deleteSelectedHat, hsel]
    exact ⟨rfl, rfl, rfl⟩
  · intro s u hsel nd hu
    rw [deleteSelectedHat, hsel]
    exact length_filter_ne s.hats u nd hu
  · intro s hsel
    rw [deleteSelectedHat, hsel]

/-- C7 witness: a load-add-delete run from the initial state keeps the
selection valid, and deleting with no selection changes nothing. -/
theorem c7_selection_invariant_witness :
    SelInv (run initState
      [Op.loadBg (Img.mk 512 512),
       Op.addOverlay sampleHat (Img.mk 100 40) "u1" 0 0,
       Op.deleteSel]) ∧
    deleteSelectedHat initState = initState := by
  refine ⟨c7_selection_invariant.1 initState _ ?_,
    c7_selection_invariant.2.2.2 initState rfl⟩
  intro u hu
  exact Option.noConfusion hu

end Claims4

/-- A path already in the cache is never decoded again. -/
theorem decodeCount_of_mem (p : String) (cache : List String)
    (t : List CacheEvent) (hp : p ∈ cache) : decodeCount p cache t = 0 := by
  induction t generalizing cache with
  | nil => rfl
  | cons e rest ih =>
    cases e with
    | request q =>
      simp only [decodeCount]
      rw [if_neg (by rintro ⟨rfl, hq⟩; exact hq hp)]
      rw [Nat.zero_add]
      exact ih cache hp
    | complete q =>
      simp only [decodeCount]
      exact ih (q :: cache) (List.mem_cons_of_mem q hp)

/-- Decode counting splits over trace concatenation, threading the cache
through the first part. -/
theorem decodeCount_append (p : String) (c : List String)
    (t1 t2 : List CacheEvent) :
    decodeCount p c (t1 ++ t2) =
      decodeCount p c t1 + decodeCount p (cacheAfter c t1) t2 := by
  induction t1 generalizing c with
  | nil => simp [decodeCount, cacheAfter]
  | cons e rest ih =>
    cases e with
    | request q =>
      simp only [List.cons_append, List.append_eq, decodeCount, cacheAfter]
      rw [ih c]
      omega
    | complete q =>
      simp only [List.cons_append, decodeCount, cacheAfter]
      exact ih (q :: c)

section Claims5

/-- C8 counterexample: two requests for the same path issued before the
first decode completes each trigger a decode, so a path can be decoded
twice, refuting "never fetched or decoded more than once per path". -/
theorem c8_counterexample :
    decodeCount "a" []
      [CacheEvent.request "a", CacheEvent.request "a"] = 2 ∧
    ¬ (∀ (trace : List CacheEvent) (p : String),
        decodeCount p [] trace ≤ 1) := by
  have hval : decodeCount "a" []
      [CacheEvent.request "a", CacheEvent.request "a"] = 2 := by decide
  refine ⟨hval, fun hall => ?_⟩
  have h := hall [CacheEvent.request "a", CacheEvent.request "a"] "a"
  rw [hval] at h
  exact absurd h (by decide)

/-- C8 (amended): the cache memoizes completed decodes: a request for a
path that is already cached never decodes, and once a `complete` for a
path has been processed, no later event adds a decode of that path; but a
request issued before the path's decode completes does trigger its own
decode (there is no in-flight record). -/
theorem c8_memoized_after_completion :
    (∀ (p : String) (cache : List String) (t : List CacheEvent),
      p ∈ cache → decodeCount p cache t = 0) ∧
    (∀ (p : String) (t1 t2 : List CacheEvent),
      decodeCount p [] (t1 ++ CacheEvent.complete p :: t2) =
        decodeCount p [] (t1 ++ [CacheEvent.complete p])) ∧
    (∀ (p : String) (cache : List String) (t : List CacheEvent),
      p ∉ cache →
      decodeCount p cache (CacheEvent.request p :: t) =
        1 + decodeCount p cache t) := by
  refine ⟨decodeCount_of_mem, ?_, ?_⟩
  · intro p t1 t2
    rw [decodeCount_append, decodeCount_append]
    congr 1
    show decodeCount p (cacheAfter [] t1) (CacheEvent.complete p :: t2) =
      decodeCount p (cacheAfter [] t1) [CacheEvent.complete p]
    simp only [decodeCount]
    rw [decodeCount_of_mem p _ t2 (List.mem_cons_self p _)]
  · intro p cache t hp
    simp [decodeCount, hp]

/-- C8 witness: a cached path is served without decoding, and a request
after the completion adds no decode. -/
theorem c8_memoized_after_completion_witness :
    decodeCount "a" ["a"] [CacheEvent.request "a"] = 0 ∧
    decodeCount "a" []
      [CacheEvent.request "a", CacheEvent.complete "a",
       CacheEvent.request "a"] =
      decodeCount "a" [] [CacheEvent.request "a", CacheEvent.complete "a"] :=
  ⟨c8_memoized_after_completion.1 "a" ["a"] _ (List.mem_singleton.mpr rfl),
   c8_memoized_after_completion.2.1 "a" [CacheEvent.request "a"]
     [CacheEvent.request "a"]⟩

/-- C9: both export operations re-render without controls and re-render
with controls restored on every path: download performs exactly the
render-serialize-save-render sequence; copy returns true exactly when both
the encode and the clipboard write succeed, false otherwise (without
throwing, being a total function), and in all cases the last render shows
the controls again. -/
theorem c9_export_restores_controls :
    (∀ hasCanvas hasImage : Bool, hasCanvas = true → hasImage = true →
      handleDownload hasCanvas hasImage =
        [ExportEvent.render false, ExportEvent.encodePng,
         ExportEvent.saveFile, ExportEvent.render true] ∧
      lastRender (handleDownload hasCanvas hasImage) = some true) ∧
    (∀ c i b k : Bool, c = true → i = true →
      lastRender (handleCopy c i b k).2 = some true ∧
      ((handleCopy c i b k).1 = true ↔ b = true ∧ k = true)) ∧
    (∀ c i : Bool, lastRender (handleDownload c i) ≠ some false) ∧
    (∀ c i b k : Bool, lastRender (handleCopy c i b k).2 ≠ some false) := by
  refine ⟨?_, ?_, ?_, ?_⟩
  · rintro c i rfl rfl
    exact ⟨rfl, rfl⟩
  · rintro c i b k rfl rfl
    cases b <;> cases k <;> exact ⟨by decide, by decide⟩
  · intro c i
    cases c <;> cases i <;> decide
  · intro c i b k
    cases c <;> cases i <;> cases b <;> cases k <;> decide

/-- C9 witness: with canvas and image present, a download and a failing
copy both end with a controls-on render, and the failing copy reports
false. -/
theorem c9_export_restores_controls_witness :
    lastRender (handleDownload true true) = some true ∧
    lastRender (handleCopy true true true false).2 = some true ∧
    (handleCopy true true true false).1 = false := by
  refine ⟨(c9_export_restores_controls.1 true true rfl rfl).2,
    (c9_export_restores_controls.2.1 true true true false rfl rfl).1,
    by decide⟩

end Claims5
